import Mathlib

/-!
Verification of the discord-rpc client core (transport framing codec,
socket connector, session state machine, request correlator) against its
specification. The definitions below are shallow embeddings of the
TypeScript source in src/client.ts, src/transport.ts, src/constants.ts and
src/errors.ts; byte buffers become lists of naturals, JS Map registries
become key lists, and observable side effects (emitted events, promise
resolutions, timers, socket writes) become explicit effect lists.
-/

set_option maxHeartbeats 1000000

/-! ## Protocol constants (src/constants.ts) -/

/-- Header size in bytes (OpCode: 4 + Length: 4). -/
def HEADER_SIZE : Nat := 8

/-- Maximum number of IPC pipe slots to scan. -/
def MAX_PIPE_INDEX : Nat := 9

/-- IPC protocol version. -/
def IPC_VERSION : Nat := 1

/-- Default heartbeat interval in milliseconds. -/
def HEARTBEAT_INTERVAL : Nat := 30000

/-- OpCode.Handshake. -/
def OpHandshake : Nat := 0

/-- OpCode.Frame. -/
def OpFrame : Nat := 1

/-- OpCode.Close. -/
def OpClose : Nat := 2

/-- OpCode.Ping. -/
def OpPing : Nat := 3

/-- OpCode.Pong. -/
def OpPong : Nat := 4

/-- RPCEvent.Ready marker string. -/
def evReady : String := "READY"

/-- RPCEvent.Error marker string. -/
def evError : String := "ERROR"

/-- Command.Dispatch marker string. -/
def cmdDispatch : String := "DISPATCH"

/-! ## Framing codec (src/transport.ts, IPCTransport.send / processBuffer)

A Node Buffer is modelled as a list of naturals (each byte below 256 in
any real buffer). JSON.stringify / JSON.parse and the UTF-8 encoding are
external Node built-ins, so the codec is parameterised by the composite
byte-level parse function (Buffer.toString followed by JSON.parse), which
returns none exactly when JSON.parse throws. -/

/-- Buffer.writeUInt32LE value at offset 0: the four little-endian bytes of a
value below 2 to the 32. -/
def writeUInt32LE (n : Nat) : List Nat :=
  [n % 256, n / 256 % 256, n / 65536 % 256, n / 16777216 % 256]

/-- Buffer.readUInt32LE at offset 0: recombine the first four bytes,
little-endian. The source only ever reads a header out of a buffer already
known to hold at least HEADER_SIZE bytes, so the short-list default is never
reached there. -/
def readUInt32LE (b : List Nat) : Nat :=
  match b with
  | b0 :: b1 :: b2 :: b3 :: _ => b0 + 256 * b1 + 65536 * b2 + 16777216 * b3
  | _ => 0

/-- IPCTransport.send framing step: an 8-byte header holding the opcode and
the payload byte length (both UInt32LE), followed by the payload bytes. -/
def encodePacket (op : Nat) (data : List Nat) : List Nat :=
  writeUInt32LE op ++ writeUInt32LE data.length ++ data

/-- Packet opcode: readUInt32LE at offset 0 of the buffer. -/
def packetOp (buf : List Nat) : Nat := readUInt32LE buf

/-- Packet payload length: readUInt32LE at offset 4 of the buffer. -/
def packetLen (buf : List Nat) : Nat := readUInt32LE (buf.drop 4)

/-- IPCTransport.processBuffer: repeatedly strip complete packets off the
accumulation buffer. While at least HEADER_SIZE bytes are buffered, read the
opcode and payload length; stop on an incomplete payload; otherwise slice the
payload out (buffer.subarray HEADER_SIZE totalPacketSize), advance the buffer
past the whole packet, and emit the packet when the payload parses; a
malformed payload is skipped silently. Returns the emitted packets in order
together with the remaining buffer. -/
def processBuffer {α : Type} (parse : List Nat → Option α) (buf : List Nat) :
    List (Nat × α) × List Nat :=
  if h : buf.length < 8 then ([], buf)
  else if h2 : buf.length < 8 + packetLen buf then ([], buf)
  else
    match parse ((buf.drop 8).take (packetLen buf)) with
    | some v =>
      ((packetOp buf, v) :: (processBuffer parse (buf.drop (8 + packetLen buf))).1,
       (processBuffer parse (buf.drop (8 + packetLen buf))).2)
    | none => processBuffer parse (buf.drop (8 + packetLen buf))
termination_by buf.length
decreasing_by
  all_goals simp only [List.length_drop]
  all_goals omega

/-- The data listener of IPCTransport.setupListeners: each incoming chunk is
appended to the accumulation buffer and processBuffer is run; the packets
emitted over the whole chunk sequence are concatenated in order. -/
def feedChunks {α : Type} (parse : List Nat → Option α) (buf : List Nat) :
    List (List Nat) → List (Nat × α) × List Nat
  | [] => ([], buf)
  | c :: cs =>
    let r1 := processBuffer parse (buf ++ c)
    let r2 := feedChunks parse r1.2 cs
    (r1.1 ++ r2.1, r2.2)

/-- Concrete byte-level parse function used to instantiate witnesses: accepts
exactly the single byte 65. -/
def witParse : List Nat → Option Nat :=
  fun b => if b = [65] then some 65 else none

/-! ## Session layer data model (src/client.ts)

The client object is modelled as an explicit state record; the observable
callback side effects (typed event emissions, promise resolutions and
rejections, timer registrations and cancellations, socket writes) are
modelled as an explicit list of effects returned next to the updated state.
JS string truthiness (null and the empty string are falsy) is modelled by
the truthy predicate. The pendingRequests Map is modelled by its key list;
Map.delete removes a key outright and Map.set adds an absent key. -/

/-- ConnectionState of the client. -/
inductive ConnState
  | disconnected
  | connecting
  | connected
  | ready
deriving DecidableEq, Repr

/-- The error taxonomy of src/errors.ts: ConnectionError, TimeoutError,
CommandError (with its numeric code) and StateError, each carrying its
message. -/
inductive RPCErr
  | connection (message : String)
  | timeout (message : String)
  | command (message : String) (code : Int)
  | stateError (message : String)
deriving DecidableEq, Repr

/-- The data object of a frame: the two fields the client reads (message and
code) plus an opaque remainder standing for the rest of the parsed JSON. -/
structure FrameData where
  message : Option String
  code : Option Int
  rest : String
deriving DecidableEq, Repr

/-- A decoded packet payload, with the projections the client reads: the
RPCFrame fields cmd / evt / nonce / data of src/types.ts, plus the top-level
message property read by the Close branch of onPacket. -/
structure Payload where
  cmd : String
  evt : Option String
  nonce : Option String
  data : FrameData
  message : Option String
deriving DecidableEq, Repr

/-- Observable side effects of the client. -/
inductive Effect
  | emitDisconnected (message : Option String)
  | destroyCall
  | sendPong (raw : Payload)
  | emitReady (data : FrameData)
  | emitError (err : RPCErr)
  | cancelTimer (nonce : String)
  | startTimer (nonce : String) (ms : Nat)
  | resolveReq (nonce : String) (data : FrameData)
  | rejectReq (nonce : String) (err : RPCErr)
  | rejectCall (err : RPCErr)
  | sendFrame (cmd : String) (args : Option String) (evt : Option String) (nonce : String)
  | emitRpcEvent (evt : String) (data : FrameData)
  | emitStateChange (s : ConnState)
  | clearActivityBestEffort
  | connectAttempt (pipeIndex : Option Nat) (timeoutMs : Nat)
  | sendHandshake (v : Nat) (clientId : String)
  | startHandshakeTimer (ms : Nat)
deriving DecidableEq, Repr

/-- The mutable fields of the Client object: connection state, the key list
of the pendingRequests Map, presence of the heartbeat timer, presence of the
transport socket, and the stored client id. -/
structure ClientState where
  state : ConnState
  pending : List String
  heartbeat : Bool
  transportConnected : Bool
  clientId : Option String
deriving DecidableEq, Repr

/-- JS truthiness of a nullable string: null and the empty string are falsy. -/
def truthy : Option String → Bool
  | none => false
  | some s => !(s == "")

/-- Map.delete on the key list of a Map: the key is gone afterwards. -/
def mapDelete (l : List String) (k : String) : List String :=
  l.filter (fun m => !(m == k))

/-- Map.has on the key list of a Map. -/
def mapHas (l : List String) (k : String) : Bool :=
  l.contains k

/-- Map.set on the key list of a Map: adds the key when absent. -/
def mapSet (l : List String) (k : String) : List String :=
  if l.contains k then l else l ++ [k]

/-- Constructor option resolution (Client.constructor): heartbeatInterval
defaults to HEARTBEAT_INTERVAL and connectionTimeout defaults to 10000. -/
structure ClientOptions where
  heartbeatInterval : Option Nat
  connectionTimeout : Option Nat

/-- The resolved options stored on the client. -/
structure ResolvedOptions where
  heartbeatInterval : Nat
  connectionTimeout : Nat

/-- Client.constructor option defaulting. -/
def resolveOptions (o : ClientOptions) : ResolvedOptions :=
  { heartbeatInterval := o.heartbeatInterval.getD HEARTBEAT_INTERVAL,
    connectionTimeout := o.connectionTimeout.getD 10000 }

/-- Client.setState: mutate and emit stateChange only when the state actually
changes. -/
def setState (st : ClientState) (newState : ConnState) : ClientState × List Effect :=
  if st.state ≠ newState then
    ({ st with state := newState }, [Effect.emitStateChange newState])
  else
    (st, [])

/-- Client.stopHeartbeat: clear the heartbeat interval timer. -/
def stopHeartbeat (st : ClientState) : ClientState :=
  { st with heartbeat := false }

/-- Client.startHeartbeat: install the heartbeat interval timer. -/
def startHeartbeat (st : ClientState) : ClientState :=
  { st with heartbeat := true }

/-- IPCTransport.destroy: drop the socket and reset the accumulation buffer. -/
def transportDestroy (st : ClientState) : ClientState :=
  { st with transportConnected := false }

/-- Client.rejectAllPending: clear each pending timer, reject each pending
request with ConnectionError, and delete every entry. -/
def rejectAllPending (st : ClientState) (reason : String) : ClientState × List Effect :=
  ({ st with pending := [] },
   st.pending.flatMap
     (fun n => [Effect.cancelTimer n, Effect.rejectReq n (RPCErr.connection reason)]))

/-- Client.destroy: when ready, a best-effort clearActivity plus flush delay
whose failure is swallowed (modelled as one effect); then stop the heartbeat,
reject all pending requests with ConnectionError, destroy the transport and
set the state to disconnected. -/
def destroy (st : ClientState) : ClientState × List Effect :=
  let pre : List Effect :=
    if st.state = ConnState.ready then [Effect.clearActivityBestEffort] else []
  let st1 := stopHeartbeat st
  let r2 := rejectAllPending st1 ("Client destroyed.")
  let st3 := transportDestroy r2.1
  let r4 := setState st3 ConnState.disconnected
  (r4.1, pre ++ r2.2 ++ r4.2)

/-- Client.request: fail immediately with StateError unless ready; otherwise
register the fresh nonce with a timeout and send a Frame packet. The fresh
randomUUID nonce is passed in as a parameter; args is carried opaquely. -/
def request (o : ClientOptions) (st : ClientState) (cmd : String)
    (args : Option String) (evt : Option String) (nonce : String) :
    ClientState × List Effect :=
  if st.state ≠ ConnState.ready then
    (st, [Effect.rejectCall (RPCErr.stateError ("Client is not ready. Call login() first."))])
  else
    ({ st with pending := mapSet st.pending nonce },
     [Effect.startTimer nonce (resolveOptions o).connectionTimeout,
      Effect.sendFrame cmd args evt nonce])

/-- The timeout callback registered by Client.request: delete the entry and
reject the request with TimeoutError. -/
def requestTimeoutFire (st : ClientState) (cmd : String) (nonce : String) :
    ClientState × List Effect :=
  ({ st with pending := mapDelete st.pending nonce },
   [Effect.rejectReq nonce (RPCErr.timeout ("Request " ++ cmd ++ " timed out."))])

/-- Fallthrough tail of Client.onPacket: a Frame with the DISPATCH command
and a truthy event name is delivered as a subscription event; anything else
is dropped silently. -/
def dispatchFallthrough (st : ClientState) (raw : Payload) : ClientState × List Effect :=
  if raw.cmd = cmdDispatch ∧ truthy raw.evt = true then
    (st, [Effect.emitRpcEvent (raw.evt.getD "") raw.data])
  else
    (st, [])

/-- Client.onPacket: route an incoming packet. Close emits disconnected and
fires destroy; Ping echoes Pong; non-Frame opcodes are ignored; a READY frame
emits ready; an ERROR frame without a truthy nonce emits an unsolicited
error; a frame with a truthy nonce matching a pending request removes the
entry, cancels its timer and resolves or rejects it; otherwise a DISPATCH
frame with a truthy event is delivered as an rpcEvent. -/
def onPacket (st : ClientState) (op : Nat) (raw : Payload) : ClientState × List Effect :=
  if op = OpClose then
    (st, [Effect.emitDisconnected raw.message, Effect.destroyCall])
  else if op = OpPing then
    (st, [Effect.sendPong raw])
  else if op ≠ OpFrame then
    (st, [])
  else if raw.evt = some evReady then
    (st, [Effect.emitReady raw.data])
  else if raw.evt = some evError ∧ truthy raw.nonce = false then
    (st, [Effect.emitError
      (RPCErr.command (raw.data.message.getD ("Unknown RPC error")) (raw.data.code.getD 0))])
  else
    match raw.nonce with
    | some n =>
      if truthy (some n) = true ∧ mapHas st.pending n = true then
        ({ st with pending := mapDelete st.pending n },
         if raw.evt = some evError then
           [Effect.cancelTimer n,
            Effect.rejectReq n
              (RPCErr.command (raw.data.message.getD ("Command failed")) (raw.data.code.getD 0))]
         else
           [Effect.cancelTimer n, Effect.resolveReq n raw.data])
      else
        dispatchFallthrough st raw
    | none => dispatchFallthrough st raw

/-- Synchronous prefix of Client.login: fail with StateError unless currently
disconnected, store the client id, move to connecting and start the transport
connection attempt bounded by the connection timeout. -/
def loginStart (o : ClientOptions) (st : ClientState) (clientId : String) :
    ClientState × List Effect :=
  if st.state ≠ ConnState.disconnected then
    (st, [Effect.rejectCall
      (RPCErr.stateError ("Client is already connected or connecting. Call destroy() first."))])
  else
    let st1 := { st with clientId := some clientId }
    let r := setState st1 ConnState.connecting
    (r.1, r.2 ++ [Effect.connectAttempt none (resolveOptions o).connectionTimeout])

/-- Continuation of Client.login after the transport connection resolves:
move to connected, arm the handshake timeout and send the Handshake packet. -/
def loginAfterConnect (o : ClientOptions) (st : ClientState) (clientId : String) :
    ClientState × List Effect :=
  let r := setState st ConnState.connected
  (r.1, r.2 ++ [Effect.startHandshakeTimer (resolveOptions o).connectionTimeout,
                Effect.sendHandshake IPC_VERSION clientId])

/-- Harness running a sequence of setState calls, collecting the effects;
every write to the state field in the source goes through setState, so any
real execution trace of stateChange emissions is covered by some call list. -/
def runSetStates (st : ClientState) : List ConnState → ClientState × List Effect
  | [] => (st, [])
  | s :: rest =>
    ((runSetStates (setState st s).1 rest).1,
     (setState st s).2 ++ (runSetStates (setState st s).1 rest).2)

/-- The stateChange values carried by an effect list, in emission order. -/
def emittedStates (effects : List Effect) : List ConnState :=
  effects.filterMap (fun e =>
    match e with
    | Effect.emitStateChange s => some s
    | _ => none)

/-! ## Socket connector (src/transport.ts, connect / tryConnect)

The outcome of each socket attempt is external to the repository, so the
connector is parameterised by an outcome oracle: per slot for the scan loop
of IPCTransport.connect, per candidate path for the tryPath recursion of
IPCTransport.tryConnect. -/

/-- IPCTransport.connect scan loop from slot i: stop at the first slot whose
tryConnect resolves; when every slot up to MAX_PIPE_INDEX fails, fail with
the ConnectionError naming the number of scanned pipes. Returns the attempted
slots in order next to the result. -/
def connectScan (tryOutcome : Nat → Except RPCErr Unit) (i : Nat) :
    List Nat × Except RPCErr Unit :=
  if h : MAX_PIPE_INDEX < i then
    ([], Except.error (RPCErr.connection
      ("Could not connect to Discord. No running instance found (scanned "
        ++ toString (MAX_PIPE_INDEX + 1) ++ " pipes).")))
  else
    match tryOutcome i with
    | Except.ok _ => ([i], Except.ok ())
    | Except.error _ =>
      let r := connectScan tryOutcome (i + 1)
      (i :: r.1, r.2)
termination_by MAX_PIPE_INDEX + 1 - i
decreasing_by
  simp only [MAX_PIPE_INDEX] at *
  omega

/-- IPCTransport.connect: with a numeric pipeIndex only that slot is
attempted and its result propagates; otherwise slots are scanned from 0. -/
def ipcConnect (tryOutcome : Nat → Except RPCErr Unit) (pipeIndex : Option Nat) :
    List Nat × Except RPCErr Unit :=
  match pipeIndex with
  | some i => ([i], tryOutcome i)
  | none => connectScan tryOutcome 0

/-- Outcome of one socket connection attempt on one candidate path. -/
inductive PathOutcome
  | connected
  | notFound
  | refused
  | timedOut
  | failed (message : String)
deriving DecidableEq, Repr

/-- Result of the tryPath recursion: which candidate paths were attempted,
which partial sockets were destroyed, and the promise outcome. -/
structure TryResult where
  attempted : List Nat
  destroyed : List Nat
  result : Except RPCErr Unit
deriving Repr

/-- The tryPath recursion inside IPCTransport.tryConnect for the slot at the
given index: past the last candidate path the promise rejects with the
no-pipe ConnectionError; a connected socket resolves; ENOENT or ECONNREFUSED
destroys the socket and advances to the next candidate path; a timeout
destroys the partial socket and rejects the whole slot attempt; any other
socket error destroys the socket and rejects. -/
def tryConnectPaths (outcome : Nat → PathOutcome) (totalPaths : Nat)
    (index : Nat) (timeoutMs : Nat) (pathIndex : Nat) : TryResult :=
  if h : totalPaths ≤ pathIndex then
    { attempted := [], destroyed := [],
      result := Except.error (RPCErr.connection
        ("No Discord IPC pipe found at index " ++ toString index ++ ".")) }
  else
    match outcome pathIndex with
    | PathOutcome.connected =>
      { attempted := [pathIndex], destroyed := [], result := Except.ok () }
    | PathOutcome.notFound =>
      let r := tryConnectPaths outcome totalPaths index timeoutMs (pathIndex + 1)
      { attempted := pathIndex :: r.attempted,
        destroyed := pathIndex :: r.destroyed, result := r.result }
    | PathOutcome.refused =>
      let r := tryConnectPaths outcome totalPaths index timeoutMs (pathIndex + 1)
      { attempted := pathIndex :: r.attempted,
        destroyed := pathIndex :: r.destroyed, result := r.result }
    | PathOutcome.timedOut =>
      { attempted := [pathIndex], destroyed := [pathIndex],
        result := Except.error (RPCErr.connection
          ("Connection timed out after " ++ toString timeoutMs ++ "ms.")) }
    | PathOutcome.failed msg =>
      { attempted := [pathIndex], destroyed := [pathIndex],
        result := Except.error (RPCErr.connection ("IPC connection error: " ++ msg)) }
termination_by totalPaths - pathIndex

/-- Decidable equality for attempt results, used to evaluate witnesses. -/
instance {e a : Type} [DecidableEq e] [DecidableEq a] : DecidableEq (Except e a) :=
  fun x y =>
    match x, y with
    | Except.error e1, Except.error e2 =>
      match decEq e1 e2 with
      | isTrue h => isTrue (by rw [h])
      | isFalse h => isFalse (fun hh => h (by cases hh; rfl))
    | Except.ok a1, Except.ok a2 =>
      match decEq a1 a2 with
      | isTrue h => isTrue (by rw [h])
      | isFalse h => isFalse (fun hh => h (by cases hh; rfl))
    | Except.error e1, Except.ok a1 => isFalse (fun hh => by cases hh)
    | Except.ok a1, Except.error e1 => isFalse (fun hh => by cases hh)

/-! ## Concrete fixtures used by witnesses and counterexamples -/

/-- A ready client with two pending requests. -/
def witState : ClientState :=
  { state := ConnState.ready, pending := ["aaa", "bbb"], heartbeat := true,
    transportConnected := true, clientId := some ("123") }

/-- A concrete frame data value. -/
def witData : FrameData :=
  { message := some ("boom"), code := some 4000, rest := "payload" }

/-- A concrete response frame resolving nonce aaa. -/
def witFrame : Payload :=
  { cmd := "SET_ACTIVITY", evt := none, nonce := some ("aaa"),
    data := witData, message := none }

/-- A freshly constructed, disconnected client. -/
def witStateDisc : ClientState :=
  { state := ConnState.disconnected, pending := [], heartbeat := false,
    transportConnected := false, clientId := none }

/-- Client options with neither field supplied. -/
def witOptions : ClientOptions :=
  { heartbeatInterval := none, connectionTimeout := none }

/-- Slot outcome oracle: slots 0 to 2 fail, slot 3 connects. -/
def witTry : Nat → Except RPCErr Unit :=
  fun k => if k = 3 then Except.ok () else Except.error (RPCErr.connection ("refused"))

/-- Slot outcome oracle: every slot fails. -/
def witTryFail : Nat → Except RPCErr Unit :=
  fun _ => Except.error (RPCErr.connection ("refused"))

/-- Path outcome oracle: path 0 times out, every later path would connect. -/
def witOutcome : Nat → PathOutcome :=
  fun k => if k = 0 then PathOutcome.timedOut else PathOutcome.connected

/-- Path outcome oracle: path 0 not found, path 1 refused, path 2 connects. -/
def witOutcome2 : Nat → PathOutcome :=
  fun k => if k = 0 then PathOutcome.notFound
    else if k = 1 then PathOutcome.refused else PathOutcome.connected

/-! ## Lemmas about the framing codec -/

/-- Reading a 32-bit header field only looks at the first four bytes. -/
theorem readUInt32LE_append (b c : List Nat) (h : 4 ≤ b.length) :
    readUInt32LE (b ++ c) = readUInt32LE b := by
  rcases b with _ | ⟨b0, _ | ⟨b1, _ | ⟨b2, _ | ⟨b3, rest⟩⟩⟩⟩
  all_goals first
    | rfl
    | (simp only [List.length_nil, List.length_cons] at h; omega)

/-- Round trip of the 32-bit little-endian header encoding, with arbitrary
trailing bytes. -/
theorem readUInt32LE_writeUInt32LE (n : Nat) (c : List Nat)
    (h : n < 4294967296) :
    readUInt32LE (writeUInt32LE n ++ c) = n := by
  simp only [writeUInt32LE, List.cons_append, List.nil_append, readUInt32LE]
  omega

/-- A buffer shorter than a header decodes nothing. -/
theorem processBuffer_short {α : Type} (parse : List Nat → Option α)
    (buf : List Nat) (h : buf.length < 8) :
    processBuffer parse buf = ([], buf) := by
  rw [processBuffer, dif_pos h]

/-- A buffer holding a header but an incomplete payload decodes nothing. -/
theorem processBuffer_incomplete {α : Type} (parse : List Nat → Option α)
    (buf : List Nat) (h : ¬ buf.length < 8) (h2 : buf.length < 8 + packetLen buf) :
    processBuffer parse buf = ([], buf) := by
  rw [processBuffer, dif_neg h, dif_pos h2]

/-- The empty buffer decodes nothing. -/
theorem processBuffer_nil {α : Type} (parse : List Nat → Option α) :
    processBuffer parse [] = ([], []) :=
  processBuffer_short parse [] (by simp)

/-- Unfolding step for a complete packet at the head of the buffer. -/
theorem processBuffer_step {α : Type} (parse : List Nat → Option α)
    (buf : List Nat) (h : ¬ buf.length < 8) (h2 : ¬ buf.length < 8 + packetLen buf) :
    processBuffer parse buf =
      match parse ((buf.drop 8).take (packetLen buf)) with
      | some v =>
        ((packetOp buf, v) :: (processBuffer parse (buf.drop (8 + packetLen buf))).1,
         (processBuffer parse (buf.drop (8 + packetLen buf))).2)
      | none => processBuffer parse (buf.drop (8 + packetLen buf)) := by
  rw [processBuffer, dif_neg h, dif_neg h2]

/-- Decoding a well-formed packet at the head of the buffer consumes exactly
that packet: it is emitted when its payload parses and skipped silently when
it does not, and decoding continues on the rest of the buffer either way. -/
theorem processBuffer_packet_head {α : Type} (parse : List Nat → Option α)
    (op : Nat) (data tail : List Nat)
    (hop : op < 4294967296) (hlen : data.length < 4294967296) :
    processBuffer parse (encodePacket op data ++ tail) =
      ((match parse data with
        | some v => [(op, v)]
        | none => []) ++ (processBuffer parse tail).1,
       (processBuffer parse tail).2) := by
  have hw : (writeUInt32LE op).length = 4 := by simp [writeUInt32LE]
  have hw2 : (writeUInt32LE data.length).length = 4 := by simp [writeUInt32LE]
  have hB : encodePacket op data ++ tail =
      writeUInt32LE op ++ (writeUInt32LE data.length ++ (data ++ tail)) := by
    simp [encodePacket]
  have hBlen : (encodePacket op data ++ tail).length = 8 + data.length + tail.length := by
    simp [encodePacket, writeUInt32LE]
    omega
  have hopRead : packetOp (encodePacket op data ++ tail) = op := by
    rw [packetOp, hB, readUInt32LE_writeUInt32LE op _ hop]
  have hdrop4 : (encodePacket op data ++ tail).drop 4 =
      writeUInt32LE data.length ++ (data ++ tail) := by
    rw [hB, ← hw, List.drop_left]
  have hlenRead : packetLen (encodePacket op data ++ tail) = data.length := by
    rw [packetLen, hdrop4, readUInt32LE_writeUInt32LE _ _ hlen]
  have hdrop8 : (encodePacket op data ++ tail).drop 8 = data ++ tail := by
    rw [hB, ← List.append_assoc]
    have h8 : (writeUInt32LE op ++ writeUInt32LE data.length).length = 8 := by
      simp [writeUInt32LE]
    rw [← h8, List.drop_left]
  have hraw : ((encodePacket op data ++ tail).drop 8).take data.length = data := by
    rw [hdrop8, List.take_append_of_le_length (Nat.le_refl _), List.take_length]
  have hEncLen : (encodePacket op data).length = 8 + data.length := by
    simp [encodePacket, writeUInt32LE]
    omega
  have hrest : (encodePacket op data ++ tail).drop (8 + data.length) = tail := by
    rw [← hEncLen, List.drop_left]
  rw [processBuffer, dif_neg (by rw [hBlen]; omega),
      dif_neg (by rw [hlenRead, hBlen]; omega)]
  rw [hlenRead, hraw, hopRead, hrest]
  cases hp : parse data <;> simp

/-- Appending bytes to a buffer first yields the packets of the old buffer and
then continues from its remainder: decoding commutes with buffer growth. -/
theorem processBuffer_append {α : Type} (parse : List Nat → Option α)
    (buf c : List Nat) :
    processBuffer parse (buf ++ c) =
      ((processBuffer parse buf).1 ++
         (processBuffer parse ((processBuffer parse buf).2 ++ c)).1,
       (processBuffer parse ((processBuffer parse buf).2 ++ c)).2) := by
  have main : ∀ n (buf : List Nat), buf.length ≤ n →
      processBuffer parse (buf ++ c) =
        ((processBuffer parse buf).1 ++
           (processBuffer parse ((processBuffer parse buf).2 ++ c)).1,
         (processBuffer parse ((processBuffer parse buf).2 ++ c)).2) := by
    intro n
    induction n with
    | zero =>
      intro buf hb
      have hbe : buf = [] := List.length_eq_zero.mp (Nat.le_zero.mp hb)
      subst hbe
      rw [processBuffer_nil]
      simp
    | succ n ih =>
      intro buf hb
      by_cases h1 : buf.length < 8
      · rw [processBuffer_short parse buf h1]
        simp
      · by_cases h2 : buf.length < 8 + packetLen buf
        · rw [processBuffer_incomplete parse buf h1 h2]
          simp
        · have h4 : 4 ≤ buf.length := by omega
          have hople : packetOp (buf ++ c) = packetOp buf :=
            readUInt32LE_append buf c h4
          have hdrop4 : (buf ++ c).drop 4 = buf.drop 4 ++ c :=
            List.drop_append_of_le_length h4
          have hlenle : packetLen (buf ++ c) = packetLen buf := by
            rw [packetLen, hdrop4, readUInt32LE_append, ← packetLen]
            simp only [List.length_drop]
            omega
          have h1c : ¬ (buf ++ c).length < 8 := by
            simp only [List.length_append]
            omega
          have h2c : ¬ (buf ++ c).length < 8 + packetLen (buf ++ c) := by
            rw [hlenle]
            simp only [List.length_append]
            omega
          have hdrop8 : (buf ++ c).drop 8 = buf.drop 8 ++ c :=
            List.drop_append_of_le_length (by omega)
          have hraw : ((buf ++ c).drop 8).take (packetLen (buf ++ c)) =
              (buf.drop 8).take (packetLen buf) := by
            rw [hlenle, hdrop8, List.take_append_of_le_length]
            simp only [List.length_drop]
            omega
          have hrest : (buf ++ c).drop (8 + packetLen (buf ++ c)) =
              buf.drop (8 + packetLen buf) ++ c := by
            rw [hlenle]
            exact List.drop_append_of_le_length (by omega)
          have hrlen : (buf.drop (8 + packetLen buf)).length ≤ n := by
            simp only [List.length_drop]
            omega
          rw [processBuffer_step parse (buf ++ c) h1c h2c,
              processBuffer_step parse buf h1 h2,
              hraw, hrest, hople]
          cases hp : parse ((buf.drop 8).take (packetLen buf)) <;>
            simp [ih (buf.drop (8 + packetLen buf)) hrlen]
  exact main buf.length buf (Nat.le_refl _)

/-- The remainder left by the decoder never itself holds a complete packet:
running the decoder again on it is a no-op. -/
theorem processBuffer_rem_stuck {α : Type} (parse : List Nat → Option α)
    (buf : List Nat) :
    processBuffer parse ((processBuffer parse buf).2) =
      ([], (processBuffer parse buf).2) := by
  have main : ∀ n (buf : List Nat), buf.length ≤ n →
      processBuffer parse ((processBuffer parse buf).2) =
        ([], (processBuffer parse buf).2) := by
    intro n
    induction n with
    | zero =>
      intro buf hb
      have hbe : buf = [] := List.length_eq_zero.mp (Nat.le_zero.mp hb)
      subst hbe
      rw [processBuffer_nil]
      exact processBuffer_nil parse
    | succ n ih =>
      intro buf hb
      by_cases h1 : buf.length < 8
      · rw [processBuffer_short parse buf h1]
        exact processBuffer_short parse buf h1
      · by_cases h2 : buf.length < 8 + packetLen buf
        · rw [processBuffer_incomplete parse buf h1 h2]
          exact processBuffer_incomplete parse buf h1 h2
        · have hrlen : (buf.drop (8 + packetLen buf)).length ≤ n := by
            simp only [List.length_drop]
            omega
          rw [processBuffer_step parse buf h1 h2]
          cases hp : parse ((buf.drop 8).take (packetLen buf)) <;>
            simp [ih (buf.drop (8 + packetLen buf)) hrlen]
  exact main buf.length buf (Nat.le_refl _)

/-- Feeding chunks one at a time, starting from a buffer on which the decoder
is stuck, emits exactly the packets of the concatenation of that buffer with
all the chunks. -/
theorem feedChunks_flatten {α : Type} (parse : List Nat → Option α)
    (cs : List (List Nat)) (buf : List Nat)
    (hstuck : processBuffer parse buf = ([], buf)) :
    feedChunks parse buf cs = processBuffer parse (buf ++ cs.flatten) := by
  induction cs generalizing buf with
  | nil =>
    simp only [feedChunks, List.flatten_nil, List.append_nil, hstuck]
  | cons c cs ih =>
    have hstuck2 : processBuffer parse ((processBuffer parse (buf ++ c)).2) =
        ([], (processBuffer parse (buf ++ c)).2) :=
      processBuffer_rem_stuck parse (buf ++ c)
    simp only [feedChunks, List.flatten_cons, ← List.append_assoc]
    rw [processBuffer_append parse (buf ++ c) cs.flatten,
        ih _ hstuck2]

/-- Decoding a single encoded packet whose payload parses yields exactly that
packet and an empty remainder. -/
theorem processBuffer_single_ok {α : Type} (parse : List Nat → Option α)
    (op : Nat) (data : List Nat) (v : α)
    (hop : op < 4294967296) (hlen : data.length < 4294967296)
    (hp : parse data = some v) :
    processBuffer parse (encodePacket op data) = ([(op, v)], []) := by
  have h := processBuffer_packet_head parse op data [] hop hlen
  rw [List.append_nil, processBuffer_nil, hp] at h
  simpa using h

/-- C1: for every opcode and payload whose bytes parse back to a value,
encoding the pair with the framing codec (8-byte little-endian header of
opcode and payload byte length, then the payload bytes) and feeding the
result to the decoder yields exactly one decoded packet equal to the pair,
and the result is the same for every way of splitting the encoded bytes into
chunks delivered one at a time to the accumulation buffer. -/
theorem framing_roundtrip_chunked {α : Type} (parse : List Nat → Option α)
    (op : Nat) (data : List Nat) (v : α) (cs : List (List Nat))
    (hop : op < 4294967296) (hlen : data.length < 4294967296)
    (hp : parse data = some v) (hcs : cs.flatten = encodePacket op data) :
    processBuffer parse (encodePacket op data) = ([(op, v)], []) ∧
    feedChunks parse [] cs = ([(op, v)], []) := by
  have h1 := processBuffer_single_ok parse op data v hop hlen hp
  refine ⟨h1, ?_⟩
  rw [feedChunks_flatten parse cs [] (processBuffer_nil parse),
      List.nil_append, hcs, h1]

/-- Witness for C1 at a concrete packet split into two chunks. -/
theorem framing_roundtrip_chunked_witness :
    processBuffer witParse (encodePacket 1 [65]) = ([(1, 65)], []) ∧
    feedChunks witParse [] [[1, 0, 0, 0], [1, 0, 0, 0, 65]] = ([(1, 65)], []) :=
  framing_roundtrip_chunked witParse 1 [65] 65 [[1, 0, 0, 0], [1, 0, 0, 0, 65]]
    (by decide) (by decide) (by decide) (by decide)

/-- C2: a packet with a valid header and complete payload block whose payload
fails to parse is dropped silently (not emitted), the buffer is advanced past
its header and payload anyway, and a following well-formed packet in the same
buffer is still decoded correctly. -/
theorem malformed_payload_isolation {α : Type} (parse : List Nat → Option α)
    (op1 op2 : Nat) (bad good : List Nat) (v : α)
    (hop1 : op1 < 4294967296) (hop2 : op2 < 4294967296)
    (hbl : bad.length < 4294967296) (hgl : good.length < 4294967296)
    (hbad : parse bad = none) (hgood : parse good = some v) :
    processBuffer parse (encodePacket op1 bad ++ encodePacket op2 good) =
      ([(op2, v)], []) := by
  rw [processBuffer_packet_head parse op1 bad _ hop1 hbl, hbad]
  simp [processBuffer_single_ok parse op2 good v hop2 hgl hgood]

/-- Witness for C2: a malformed packet followed by a well-formed one. -/
theorem malformed_payload_isolation_witness :
    processBuffer witParse (encodePacket 2 [66] ++ encodePacket 1 [65]) =
      ([(1, 65)], []) :=
  malformed_payload_isolation witParse 2 1 [66] [65] 65
    (by decide) (by decide) (by decide) (by decide) (by decide) (by decide)


/-! ## Lemmas about the pending-request registry -/

/-- Map.has after Map.delete of the same key is false. -/
theorem mapHas_mapDelete_self (l : List String) (k : String) :
    mapHas (mapDelete l k) k = false := by
  simp [mapHas, mapDelete, List.contains, List.elem_eq_mem, List.mem_filter]

/-- Map.delete leaves membership of every other key unchanged. -/
theorem mapHas_mapDelete_ne (l : List String) (k m : String) (h : m ≠ k) :
    mapHas (mapDelete l k) m = mapHas l m := by
  simp [mapHas, mapDelete, List.contains, List.elem_eq_mem, List.mem_filter, h]

/-- Membership in the key list after Map.delete. -/
theorem mem_mapDelete (l : List String) (k m : String) :
    m ∈ mapDelete l k ↔ m ∈ l ∧ m ≠ k := by
  simp [mapDelete, List.mem_filter]

/-! ## Request correlation (C3, C4) -/

/-- C3: a Frame whose truthy nonce matches a pending request removes exactly
that entry from the registry, cancels its timeout, and resolves the request
with the frame data, or rejects it with CommandError carrying the
server-provided message and numeric code when the event is the ERROR marker;
processing stops there (no broadcast rpcEvent is emitted) and every other
pending token is left unchanged. The frame is not the handshake READY event,
which an earlier dispatch step consumes (spec section 4.6, step 4 before
step 6). -/
theorem response_correlation (st : ClientState) (raw : Payload) (n : String)
    (hn : raw.nonce = some n) (hne : n ≠ "")
    (hmem : mapHas st.pending n = true)
    (hnr : raw.evt ≠ some evReady) :
    (onPacket st OpFrame raw).1.pending = mapDelete st.pending n ∧
    (onPacket st OpFrame raw).1.state = st.state ∧
    (∀ m, m ≠ n → mapHas (onPacket st OpFrame raw).1.pending m = mapHas st.pending m) ∧
    (onPacket st OpFrame raw).2 =
      (if raw.evt = some evError then
        [Effect.cancelTimer n,
         Effect.rejectReq n
           (RPCErr.command (raw.data.message.getD ("Command failed")) (raw.data.code.getD 0))]
       else
        [Effect.cancelTimer n, Effect.resolveReq n raw.data]) ∧
    (∀ e d, Effect.emitRpcEvent e d ∉ (onPacket st OpFrame raw).2) := by
  have htr : truthy (some n) = true := by
    simp [truthy, hne]
  have hres : onPacket st OpFrame raw =
      ({ st with pending := mapDelete st.pending n },
       if raw.evt = some evError then
         [Effect.cancelTimer n,
          Effect.rejectReq n
            (RPCErr.command (raw.data.message.getD ("Command failed")) (raw.data.code.getD 0))]
       else
         [Effect.cancelTimer n, Effect.resolveReq n raw.data]) := by
    unfold onPacket
    rw [if_neg (by decide), if_neg (by decide), if_neg (by simp),
        if_neg hnr, if_neg (by rintro ⟨h1, h2⟩; rw [hn, htr] at h2; cases h2),
        hn]
    simp only [htr, hmem, and_self, if_pos]
  refine ⟨?_, ?_, ?_, ?_, ?_⟩
  · rw [hres]
  · rw [hres]
  · intro m hm
    rw [hres]
    exact mapHas_mapDelete_ne st.pending n m hm
  · rw [hres]
  · intro e d
    rw [hres]
    by_cases he : raw.evt = some evError <;> simp [he]

/-- Witness for C3 at a concrete ready client and response frame. -/
theorem response_correlation_witness :
    (onPacket witState OpFrame witFrame).1.pending = mapDelete ["aaa", "bbb"] "aaa" ∧
    (onPacket witState OpFrame witFrame).1.state = ConnState.ready ∧
    (∀ m, m ≠ "aaa" →
      mapHas (onPacket witState OpFrame witFrame).1.pending m = mapHas witState.pending m) ∧
    (onPacket witState OpFrame witFrame).2 =
      (if witFrame.evt = some evError then
        [Effect.cancelTimer "aaa",
         Effect.rejectReq "aaa"
           (RPCErr.command (witFrame.data.message.getD ("Command failed"))
             (witFrame.data.code.getD 0))]
       else
        [Effect.cancelTimer "aaa", Effect.resolveReq "aaa" witFrame.data]) ∧
    (∀ e d, Effect.emitRpcEvent e d ∉ (onPacket witState OpFrame witFrame).2) :=
  response_correlation witState witFrame "aaa" rfl (by decide) (by decide) (by decide)

/-- C4: when the per-request timeout fires, the entry is removed from the
registry and the request rejects with TimeoutError; a response frame carrying
the same token arriving afterwards (a response frame per spec section 6
carries the echoed command, never DISPATCH, and a null or ERROR event)
matches no pending entry and has no observable effect: no state change, no
resolution, no rejection, no event delivered. -/
theorem timeout_then_late_response (st : ClientState) (cmd : String) (n : String)
    (raw : Payload) (hne : n ≠ "") (hmem : mapHas st.pending n = true)
    (hn : raw.nonce = some n)
    (hevt : raw.evt = none ∨ raw.evt = some evError)
    (hcmd : raw.cmd ≠ cmdDispatch) :
    mapHas (requestTimeoutFire st cmd n).1.pending n = false ∧
    (requestTimeoutFire st cmd n).2 =
      [Effect.rejectReq n (RPCErr.timeout ("Request " ++ cmd ++ " timed out."))] ∧
    onPacket (requestTimeoutFire st cmd n).1 OpFrame raw =
      ((requestTimeoutFire st cmd n).1, []) := by
  refine ⟨mapHas_mapDelete_self st.pending n, rfl, ?_⟩
  have hnm : mapHas (requestTimeoutFire st cmd n).1.pending n = false :=
    mapHas_mapDelete_self st.pending n
  have hnready : raw.evt ≠ some evReady := by
    rcases hevt with h | h <;> rw [h] <;> simp [evError, evReady]
  have htr : truthy (some n) = true := by
    simp [truthy, hne]
  unfold onPacket
  rw [if_neg (by decide), if_neg (by decide), if_neg (by simp),
      if_neg hnready, if_neg (by rintro ⟨h1, h2⟩; rw [hn, htr] at h2; cases h2),
      hn]
  have hcond : ¬ (truthy (some n) = true ∧
      mapHas (requestTimeoutFire st cmd n).1.pending n = true) := by
    rintro ⟨h1, h2⟩
    rw [hnm] at h2
    cases h2
  simp only [if_neg hcond]
  unfold dispatchFallthrough
  rw [if_neg (by rintro ⟨h1, h2⟩; exact hcmd h1)]

/-- Witness for C4: the timeout for nonce aaa fires, then the same response
frame arrives late and is ignored. -/
theorem timeout_then_late_response_witness :
    mapHas (requestTimeoutFire witState "SET_ACTIVITY" "aaa").1.pending "aaa" = false ∧
    (requestTimeoutFire witState "SET_ACTIVITY" "aaa").2 =
      [Effect.rejectReq "aaa"
        (RPCErr.timeout ("Request " ++ "SET_ACTIVITY" ++ " timed out."))] ∧
    onPacket (requestTimeoutFire witState "SET_ACTIVITY" "aaa").1 OpFrame witFrame =
      ((requestTimeoutFire witState "SET_ACTIVITY" "aaa").1, []) :=
  timeout_then_late_response witState "SET_ACTIVITY" "aaa" witFrame
    (by decide) (by decide) rfl (Or.inl rfl) (by decide)

/-! ## Teardown and state preconditions (C5, C6) -/

/-- C5: destroy, called in any state whatsoever, stops the heartbeat, rejects
every pending request with ConnectionError, leaves the registry empty, closes
the underlying connection and sets the state to disconnected. -/
theorem destroy_teardown (st : ClientState) :
    (destroy st).1.heartbeat = false ∧
    (destroy st).1.pending = [] ∧
    (destroy st).1.transportConnected = false ∧
    (destroy st).1.state = ConnState.disconnected ∧
    (∀ n, n ∈ st.pending →
      Effect.rejectReq n (RPCErr.connection ("Client destroyed.")) ∈ (destroy st).2) := by
  have hmemE : ∀ n, n ∈ st.pending →
      Effect.rejectReq n (RPCErr.connection ("Client destroyed.")) ∈ (destroy st).2 := by
    intro n hnmem
    have hx : Effect.rejectReq n (RPCErr.connection ("Client destroyed.")) ∈
        st.pending.flatMap
          (fun m => [Effect.cancelTimer m,
                     Effect.rejectReq m (RPCErr.connection ("Client destroyed."))]) :=
      List.mem_flatMap.mpr ⟨n, hnmem, by simp⟩
    unfold destroy rejectAllPending
    simp only [List.mem_append]
    exact Or.inl (Or.inr hx)
  refine ⟨?_, ?_, ?_, ?_, hmemE⟩ <;>
    cases hst : st.state <;>
      simp [destroy, rejectAllPending, stopHeartbeat, transportDestroy, setState, hst]

/-- Witness for C5 on a ready client with two pending requests. -/
theorem destroy_teardown_witness :
    (destroy witState).1.heartbeat = false ∧
    (destroy witState).1.pending = [] ∧
    (destroy witState).1.transportConnected = false ∧
    (destroy witState).1.state = ConnState.disconnected ∧
    (∀ n, n ∈ witState.pending →
      Effect.rejectReq n (RPCErr.connection ("Client destroyed.")) ∈
        (destroy witState).2) :=
  destroy_teardown witState

/-- C6: in every session state other than ready, request rejects immediately
with StateError, sends nothing over the transport, starts no timer, and adds
no entry to the pending-request registry. -/
theorem request_not_ready (o : ClientOptions) (st : ClientState) (cmd : String)
    (args : Option String) (evt : Option String) (nonce : String)
    (h : st.state ≠ ConnState.ready) :
    request o st cmd args evt nonce =
      (st, [Effect.rejectCall
        (RPCErr.stateError ("Client is not ready. Call login() first."))]) ∧
    (request o st cmd args evt nonce).1.pending = st.pending ∧
    (∀ c a e nn, Effect.sendFrame c a e nn ∉ (request o st cmd args evt nonce).2) ∧
    (∀ nn ms, Effect.startTimer nn ms ∉ (request o st cmd args evt nonce).2) := by
  have he : request o st cmd args evt nonce =
      (st, [Effect.rejectCall
        (RPCErr.stateError ("Client is not ready. Call login() first."))]) := by
    unfold request
    rw [if_pos h]
  refine ⟨he, by rw [he], ?_, ?_⟩
  · intro c a e nn
    rw [he]
    simp
  · intro nn ms
    rw [he]
    simp

/-- Witness for C6 on a disconnected client. -/
theorem request_not_ready_witness :
    request witOptions witStateDisc "SET_ACTIVITY" none none "aaa" =
      (witStateDisc, [Effect.rejectCall
        (RPCErr.stateError ("Client is not ready. Call login() first."))]) ∧
    (request witOptions witStateDisc "SET_ACTIVITY" none none "aaa").1.pending =
      witStateDisc.pending ∧
    (∀ c a e nn,
      Effect.sendFrame c a e nn ∉
        (request witOptions witStateDisc "SET_ACTIVITY" none none "aaa").2) ∧
    (∀ nn ms,
      Effect.startTimer nn ms ∉
        (request witOptions witStateDisc "SET_ACTIVITY" none none "aaa").2) :=
  request_not_ready witOptions witStateDisc "SET_ACTIVITY" none none "aaa" (by decide)

/-! ## Socket connector (C7, C8) -/

/-- Scanning from slot i with the first success at slot k attempts exactly
the slots i..k in ascending order and resolves. -/
theorem connectScan_success (tryOutcome : Nat → Except RPCErr Unit)
    (k : Nat) (hk : k ≤ 9) (hok : tryOutcome k = Except.ok ()) :
    ∀ i, i ≤ k → (∀ j, i ≤ j → j < k → tryOutcome j ≠ Except.ok ()) →
      connectScan tryOutcome i = (List.range' i (k - i + 1), Except.ok ()) := by
  have main : ∀ d i, i ≤ k → k - i = d →
      (∀ j, i ≤ j → j < k → tryOutcome j ≠ Except.ok ()) →
      connectScan tryOutcome i = (List.range' i (k - i + 1), Except.ok ()) := by
    intro d
    induction d with
    | zero =>
      intro i hik hdi hfail
      have hie : i = k := by omega
      subst hie
      rw [connectScan, dif_neg (by simp only [MAX_PIPE_INDEX]; omega), hok]
      have h1 : i - i + 1 = 1 := by omega
      rw [h1, List.range'_one]
    | succ d ih =>
      intro i hik hdi hfail
      have hlt : i < k := by omega
      rw [connectScan, dif_neg (by simp only [MAX_PIPE_INDEX]; omega)]
      rcases hti : tryOutcome i with e | u
      · rw [ih (i + 1) (by omega) (by omega)
              (fun j hj1 hj2 => hfail j (by omega) hj2)]
        have h2 : k - i + 1 = (k - (i + 1) + 1) + 1 := by omega
        have h3 : List.range' i (k - i + 1) =
            i :: List.range' (i + 1) (k - (i + 1) + 1) := by
          rw [h2, List.range'_succ]
        rw [h3]
      · exact absurd (by rw [hti]) (hfail i (Nat.le_refl i) hlt)
  intro i hik hfail
  exact main (k - i) i hik rfl hfail

/-- Scanning from slot i with every slot failing attempts every slot up to
MAX_PIPE_INDEX and rejects with the scanned-pipes ConnectionError. -/
theorem connectScan_failure (tryOutcome : Nat → Except RPCErr Unit) :
    ∀ i, (∀ j, i ≤ j → j ≤ 9 → tryOutcome j ≠ Except.ok ()) →
      connectScan tryOutcome i =
        (List.range' i (10 - i), Except.error (RPCErr.connection
          ("Could not connect to Discord. No running instance found (scanned "
            ++ toString (MAX_PIPE_INDEX + 1) ++ " pipes)."))) := by
  have main : ∀ d i, 10 - i = d →
      (∀ j, i ≤ j → j ≤ 9 → tryOutcome j ≠ Except.ok ()) →
      connectScan tryOutcome i =
        (List.range' i (10 - i), Except.error (RPCErr.connection
          ("Could not connect to Discord. No running instance found (scanned "
            ++ toString (MAX_PIPE_INDEX + 1) ++ " pipes)."))) := by
    intro d
    induction d with
    | zero =>
      intro i hdi hfail
      rw [connectScan, dif_pos (by simp only [MAX_PIPE_INDEX]; omega)]
      have h0 : 10 - i = 0 := hdi
      rw [h0, List.range'_zero]
    | succ d ih =>
      intro i hdi hfail
      have hle : i ≤ 9 := by omega
      rw [connectScan, dif_neg (by simp only [MAX_PIPE_INDEX]; omega)]
      rcases hti : tryOutcome i with e | u
      · rw [ih (i + 1) (by omega) (fun j hj1 hj2 => hfail j (by omega) hj2)]
        have h2 : 10 - i = (10 - (i + 1)) + 1 := by omega
        have h3 : List.range' i (10 - i) =
            i :: List.range' (i + 1) (10 - (i + 1)) := by
          rw [h2, List.range'_succ]
        rw [h3]
      · exact absurd (by rw [hti]) (hfail i (Nat.le_refl i) hle)
  intro i hfail
  exact main (10 - i) i rfl hfail

/-- C7: connect without a pipe index scans slots 0 through 9 in ascending
order, stopping at the first slot whose attempt succeeds and attempting no
further slots; when every slot fails it rejects with a ConnectionError whose
message states that 10 pipes were scanned; with a numeric pipe index only
that slot is attempted and its result propagates. -/
theorem connect_slot_scan (tryOutcome : Nat → Except RPCErr Unit) :
    (∀ k, k ≤ 9 → tryOutcome k = Except.ok () →
      (∀ j, j < k → tryOutcome j ≠ Except.ok ()) →
      ipcConnect tryOutcome none = (List.range (k + 1), Except.ok ())) ∧
    ((∀ j, j ≤ 9 → tryOutcome j ≠ Except.ok ()) →
      ipcConnect tryOutcome none =
        (List.range 10, Except.error (RPCErr.connection
          ("Could not connect to Discord. No running instance found (scanned 10 pipes).")))) ∧
    (∀ i, ipcConnect tryOutcome (some i) = ([i], tryOutcome i)) := by
  refine ⟨?_, ?_, ?_⟩
  · intro k hk hok hfail
    unfold ipcConnect
    rw [connectScan_success tryOutcome k hk hok 0 (Nat.zero_le k)
          (fun j hj1 hj2 => hfail j hj2)]
    rw [List.range_eq_range']
    have h1 : k - 0 + 1 = k + 1 := by omega
    rw [h1]
  · intro hfail
    unfold ipcConnect
    rw [connectScan_failure tryOutcome 0 (fun j hj1 hj2 => hfail j hj2)]
    have hmsg : ("Could not connect to Discord. No running instance found (scanned "
        ++ toString (MAX_PIPE_INDEX + 1) ++ " pipes).") =
        "Could not connect to Discord. No running instance found (scanned 10 pipes)." := by
      decide
    rw [hmsg, List.range_eq_range']
  · intro i
    rfl

/-- Witness for C7: slots 0 to 2 fail and slot 3 connects; a fully failing
oracle rejects after 10 slots; a numeric index attempts only that slot. -/
theorem connect_slot_scan_witness :
    ipcConnect witTry none = (List.range 4, Except.ok ()) ∧
    ipcConnect witTryFail none =
      (List.range 10, Except.error (RPCErr.connection
        ("Could not connect to Discord. No running instance found (scanned 10 pipes).")))
    ∧ ipcConnect witTry (some 7) = ([7], witTry 7) := by
  refine ⟨?_, ?_, ?_⟩
  · exact (connect_slot_scan witTry).1 3 (by decide) (by decide)
      (by intro j hj; interval_cases j <;> decide)
  · exact (connect_slot_scan witTryFail).2.1
      (by intro j hj1 hj2; simp [witTryFail] at hj2)
  · exact (connect_slot_scan witTry).2.2 7

/-- C8 counterexample: with two candidate paths for slot 0, where path 0
times out and path 1 would connect, the tryPath recursion destroys the
partial socket and rejects the whole slot attempt at once: path 1 is never
attempted and the slot fails, contradicting the claim that after a timeout
the remaining candidate paths of the same slot are still attempted. -/
theorem timeout_aborts_slot_counterexample :
    (tryConnectPaths witOutcome 2 0 100 0).attempted = [0] ∧
    (tryConnectPaths witOutcome 2 0 100 0).destroyed = [0] ∧
    (tryConnectPaths witOutcome 2 0 100 0).result =
      Except.error (RPCErr.connection ("Connection timed out after 100ms.")) ∧
    1 ∉ (tryConnectPaths witOutcome 2 0 100 0).attempted := by
  have h : tryConnectPaths witOutcome 2 0 100 0 =
      { attempted := [0], destroyed := [0],
        result := Except.error (RPCErr.connection
          ("Connection timed out after " ++ toString 100 ++ "ms.")) } := by
    rw [tryConnectPaths, dif_neg (by omega)]
    have ho : witOutcome 0 = PathOutcome.timedOut := rfl
    rw [ho]
  rw [h]
  refine ⟨rfl, rfl, by decide, by decide⟩

/-- C8 amended: an ENOENT or ECONNREFUSED error on a candidate path destroys
the socket and advances to the next candidate path of the same slot; a
connection timeout destroys the partial socket and rejects the whole slot
attempt immediately, so the remaining candidate paths of that slot are not
attempted. -/
theorem path_fallback_and_timeout (outcome : Nat → PathOutcome)
    (total index t pi : Nat) (hpi : pi < total) :
    ((outcome pi = PathOutcome.notFound ∨ outcome pi = PathOutcome.refused) →
      tryConnectPaths outcome total index t pi =
        { attempted := pi :: (tryConnectPaths outcome total index t (pi + 1)).attempted,
          destroyed := pi :: (tryConnectPaths outcome total index t (pi + 1)).destroyed,
          result := (tryConnectPaths outcome total index t (pi + 1)).result }) ∧
    (outcome pi = PathOutcome.timedOut →
      tryConnectPaths outcome total index t pi =
        { attempted := [pi], destroyed := [pi],
          result := Except.error (RPCErr.connection
            ("Connection timed out after " ++ toString t ++ "ms.")) }) := by
  constructor
  · intro h
    rw [tryConnectPaths, dif_neg (by omega)]
    rcases h with h | h <;> rw [h]
  · intro h
    rw [tryConnectPaths, dif_neg (by omega)]
    rw [h]

/-- Witness for the amended C8: a not-found path advances to the next path of
the same slot; a timed-out path rejects the slot at once. -/
theorem path_fallback_and_timeout_witness :
    (tryConnectPaths witOutcome2 3 0 100 0 =
      { attempted := 0 :: (tryConnectPaths witOutcome2 3 0 100 1).attempted,
        destroyed := 0 :: (tryConnectPaths witOutcome2 3 0 100 1).destroyed,
        result := (tryConnectPaths witOutcome2 3 0 100 1).result }) ∧
    (tryConnectPaths witOutcome 2 0 100 0 =
      { attempted := [0], destroyed := [0],
        result := Except.error (RPCErr.connection
          ("Connection timed out after " ++ toString 100 ++ "ms.")) }) :=
  ⟨(path_fallback_and_timeout witOutcome2 3 0 100 0 (by decide)).1 (Or.inl rfl),
   (path_fallback_and_timeout witOutcome 2 0 100 0 (by decide)).2 rfl⟩

/-! ## Timeout option sharing and state change discipline (C9, C10) -/

/-- C9: the per-request timeout registered by request uses the single
connectionTimeout option, which defaults to 10000 ms when not supplied at
construction; the very same resolved value bounds the transport connection
attempt started by login and the handshake wait, so the request timeout is
not independently configurable from the connection timeout. -/
theorem connection_timeout_shared (o : ClientOptions) (st stL stC : ClientState)
    (cmd : String) (args evt : Option String) (nonce clientId clientId2 : String)
    (hready : st.state = ConnState.ready)
    (hdisc : stL.state = ConnState.disconnected) :
    (o.connectionTimeout = none → (resolveOptions o).connectionTimeout = 10000) ∧
    (∀ t, o.connectionTimeout = some t → (resolveOptions o).connectionTimeout = t) ∧
    Effect.startTimer nonce (resolveOptions o).connectionTimeout ∈
      (request o st cmd args evt nonce).2 ∧
    Effect.connectAttempt none (resolveOptions o).connectionTimeout ∈
      (loginStart o stL clientId).2 ∧
    Effect.startHandshakeTimer (resolveOptions o).connectionTimeout ∈
      (loginAfterConnect o stC clientId2).2 := by
  refine ⟨?_, ?_, ?_, ?_, ?_⟩
  · intro h
    simp [resolveOptions, h]
  · intro t h
    simp [resolveOptions, h]
  · unfold request
    rw [if_neg (by rw [hready]; simp)]
    simp
  · unfold loginStart
    rw [if_neg (by rw [hdisc]; simp)]
    simp
  · unfold loginAfterConnect
    simp

/-- Witness for C9 on default options, a ready client for request and a
disconnected client for login. -/
theorem connection_timeout_shared_witness :
    (witOptions.connectionTimeout = none →
      (resolveOptions witOptions).connectionTimeout = 10000) ∧
    (∀ t, witOptions.connectionTimeout = some t →
      (resolveOptions witOptions).connectionTimeout = t) ∧
    Effect.startTimer "aaa" (resolveOptions witOptions).connectionTimeout ∈
      (request witOptions witState "SET_ACTIVITY" none none "aaa").2 ∧
    Effect.connectAttempt none (resolveOptions witOptions).connectionTimeout ∈
      (loginStart witOptions witStateDisc "123").2 ∧
    Effect.startHandshakeTimer (resolveOptions witOptions).connectionTimeout ∈
      (loginAfterConnect witOptions witStateDisc "123").2 :=
  connection_timeout_shared witOptions witState witStateDisc witStateDisc
    "SET_ACTIVITY" none none "aaa" "123" "123" rfl rfl

/-- Across any sequence of setState calls, the emitted stateChange values
form a chain with no two consecutive equal values, and the first emitted
value differs from the initial state. -/
theorem runSetStates_chain (ss : List ConnState) (st : ClientState) :
    List.Chain' (fun a b => a ≠ b)
      (st.state :: emittedStates (runSetStates st ss).2) := by
  induction ss generalizing st with
  | nil =>
    simp [runSetStates, emittedStates]
  | cons s rest ih =>
    by_cases h : st.state = s
    · have h1 : setState st s = (st, []) := by
        unfold setState
        rw [if_neg (by simp [h])]
      simp only [runSetStates, h1, List.nil_append]
      exact ih st
    · have h1 : setState st s = ({ st with state := s }, [Effect.emitStateChange s]) := by
        unfold setState
        rw [if_pos h]
      simp only [runSetStates, h1, List.cons_append, List.nil_append]
      have h2 : emittedStates (Effect.emitStateChange s ::
          (runSetStates { st with state := s } rest).2) =
          s :: emittedStates (runSetStates { st with state := s } rest).2 := by
        simp [emittedStates]
      rw [h2]
      refine List.chain'_cons.mpr ⟨h, ?_⟩
      have h3 := ih ({ st with state := s })
      simpa using h3

/-- C10: setState emits a stateChange notification exactly when the new state
differs from the current one; destroy on an already disconnected client emits
no stateChange at all; and over any sequence of setState calls no two
consecutive stateChange notifications carry the same value. -/
theorem state_change_discipline (st stD : ClientState) (s : ConnState)
    (ss : List ConnState) (hD : stD.state = ConnState.disconnected) :
    ((setState st s).2 =
      if st.state = s then [] else [Effect.emitStateChange s]) ∧
    (Effect.emitStateChange s ∈ (setState st s).2 ↔ s ≠ st.state) ∧
    (∀ x, Effect.emitStateChange x ∉ (destroy stD).2) ∧
    List.Chain' (fun a b => a ≠ b)
      (st.state :: emittedStates (runSetStates st ss).2) := by
  refine ⟨?_, ?_, ?_, runSetStates_chain ss st⟩
  · by_cases h : st.state = s <;> simp [setState, h]
  · by_cases h : st.state = s <;> simp [setState, h, eq_comm]
    exact fun hh => h hh.symm
  · intro x
    simp [destroy, rejectAllPending, stopHeartbeat, transportDestroy, setState, hD,
      List.mem_flatMap]

/-- Witness for C10 on a disconnected client and a concrete call sequence. -/
theorem state_change_discipline_witness :
    ((setState witState ConnState.ready).2 =
      if witState.state = ConnState.ready then []
      else [Effect.emitStateChange ConnState.ready]) ∧
    (Effect.emitStateChange ConnState.ready ∈ (setState witState ConnState.ready).2 ↔
      ConnState.ready ≠ witState.state) ∧
    (∀ x, Effect.emitStateChange x ∉ (destroy witStateDisc).2) ∧
    List.Chain' (fun a b => a ≠ b)
      (witState.state :: emittedStates
        (runSetStates witState
          [ConnState.ready, ConnState.disconnected, ConnState.disconnected]).2) :=
  state_change_discipline witState witStateDisc ConnState.ready
    [ConnState.ready, ConnState.disconnected, ConnState.disconnected] rfl
